import Mathlib

/-!
Verification of the order-ledger core of the `arbitrage_cripto` dashboard.

The definitions below are a shallow embedding of the JavaScript source:
* `OrdersManager` (src/unnamed/part_000): `saveNewOrder`, `showConfirmationModal`,
  `saveOrder` validation, `loadOrdersGroup` filtering;
* `ModalsManager` (src/unnamed/part_003): `performSaveOperation`,
  `performCloseOperation`, the confirmation-modal stage/confirm/cancel wiring;
* `AppCore` (src/templates/static/script.js): `loadAvailableExchanges`,
  `loadAvailableSymbols`.

JavaScript numbers that can only ever hold integer ids (or the `-Infinity`
produced by `Math.max()` with no arguments) are modelled by `JNum`.
Timestamps are modelled as integer seconds.  Optional object properties
(`symbolData.active`, `active.positions`, `order.id`, ...) are modelled with
`Option`, so the presence or absence of an array in the JS objects is tracked
faithfully.
-/

/-- A JavaScript numeric id value: either an integer or `-Infinity`
(the value of `Math.max()` applied to an empty spread). -/
inductive JNum where
  | negInf : JNum
  | int : Int → JNum
deriving DecidableEq, Repr

/-- JavaScript `Math.max` on two id values. -/
def JNum.maxJ : JNum → JNum → JNum
  | .negInf, y => y
  | .int a, .negInf => .int a
  | .int a, .int b => .int (max a b)

/-- JavaScript `x + 1` on an id value: `-Infinity + 1 = -Infinity`. -/
def JNum.addOne : JNum → JNum
  | .negInf => .negInf
  | .int a => .int (a + 1)

/-- JavaScript `Math.max(...list)`: the empty spread yields `-Infinity`. -/
def jmaxList : List JNum → JNum
  | [] => .negInf
  | x :: xs => x.maxJ (jmaxList xs)

/-- One trading entry (order, position or closed trade), the flat wire shape
used throughout the source.  Numeric trade fields are carried opaquely (no
operation under verification computes with them); `date` and `close_date`
are timestamps in seconds; `id` is absent until the ledger assigns it. -/
structure Entry where
  id : Option JNum := none
  symbol : String := ""
  exchange : String := ""
  side : String := ""
  type : String := ""
  open_type : String := ""
  leverage : Int := 1
  price : Int := 0
  amount : Int := 0
  amount_usdt : Int := 0
  stop_loss : Int := 0
  take_profit : Int := 0
  fee : Int := 0
  pls : Int := 0
  pls_percentage : Int := 0
  price_liquidation : Int := 0
  take_profit_pls : Int := 0
  stop_loss_pls : Int := 0
  date : Option Int := none
  close_date : Option Int := none
deriving DecidableEq, Repr

/-- The `active` sub-object of a symbol ledger; either array may be absent,
exactly as in the JS objects. -/
structure Active where
  orders : Option (List Entry) := none
  positions : Option (List Entry) := none
deriving DecidableEq, Repr

/-- One per-symbol ledger (`symbolData` in the source); `active` and `closed`
may be absent. -/
structure SymbolData where
  symbol : String
  active : Option Active := none
  closed : Option (List Entry) := none
deriving DecidableEq, Repr

/-- The reference catalog: `window.app.availableExchanges` and
`window.app.availableSymbols`. -/
structure Catalog where
  exchanges : List String
  symbols : List String
deriving DecidableEq, Repr

/-- `symbolData.active?.orders || []` in the source. -/
def ordersOf (sd : SymbolData) : List Entry :=
  match sd.active with
  | some a => a.orders.getD []
  | none => []

/-- `symbolData.active?.positions || []` in the source. -/
def positionsOf (sd : SymbolData) : List Entry :=
  match sd.active with
  | some a => a.positions.getD []
  | none => []

/-- `symbolData.closed || []` in the source. -/
def closedOf (sd : SymbolData) : List Entry :=
  sd.closed.getD []

/-- The active collection implied by an entry kind: `positions` for
`market`, `orders` for `limit`. -/
def impliedOf (ty : String) (sd : SymbolData) : List Entry :=
  if ty = "market" then positionsOf sd else ordersOf sd

/-- The active collection not implied by the entry kind. -/
def otherOf (ty : String) (sd : SymbolData) : List Entry :=
  if ty = "market" then ordersOf sd else positionsOf sd

/-- Total entry count across the three collections of one symbol ledger. -/
def totalOf (sd : SymbolData) : Nat :=
  (ordersOf sd).length + (positionsOf sd).length + (closedOf sd).length

/-- The closed collection of the i-th symbol ledger (empty when out of
range or absent). -/
def closedAt (l : List SymbolData) (i : Nat) : List Entry :=
  match l[i]? with
  | some sd => closedOf sd
  | none => []

/-- `o.id || 0` in the id scan of `saveNewOrder` (src/unnamed/part_000
lines 838-844): a missing id counts as `0`; `-Infinity` is truthy in JS and
passes through. -/
def idOrZero (e : Entry) : JNum :=
  e.id.getD (.int 0)

/-- All ids observed by the `maxId` scan of `saveNewOrder`
(src/unnamed/part_000 lines 838-844): every order, position and closed
entry of every symbol ledger. -/
def allIds (l : List SymbolData) : List JNum :=
  l.flatMap fun sd =>
    (ordersOf sd).map idOrZero ++ (positionsOf sd).map idOrZero
      ++ (closedOf sd).map idOrZero

/-- Validation failures raised by `saveNewOrder` / `performSaveOperation`
(each is an `alert` + early return in the source). -/
inductive SaveError where
  | missingFields
  | invalidExchange
  | invalidSymbol
  | invalidSide
  | invalidType
deriving DecidableEq, Repr

/-- The body of the symbol-match branch of the `saveNewOrder` insertion loop
(src/unnamed/part_000 lines 849-869): create `active` (with both arrays)
when absent, then push the entry into the array selected by its kind. -/
def pushByType (sd : SymbolData) (od : Entry) : SymbolData :=
  let a := sd.active.getD { orders := some [], positions := some [] }
  if od.type = "market" then
    { sd with active := some { a with positions := some (a.positions.getD [] ++ [od]) } }
  else if od.type = "limit" then
    { sd with active := some { a with orders := some (a.orders.getD [] ++ [od]) } }
  else
    { sd with active := some a }

/-- The fresh symbol ledger pushed by `saveNewOrder` when no symbol ledger
matches (src/unnamed/part_000 lines 871-879): both active arrays present,
`closed` present and empty. -/
def newSymbolDataInsert (od : Entry) : SymbolData :=
  { symbol := od.symbol,
    active := some
      { orders := some (if od.type = "limit" then [od] else []),
        positions := some (if od.type = "market" then [od] else []) },
    closed := some [] }

/-- The insertion loop of `saveNewOrder` (src/unnamed/part_000 lines
848-883): mutate the first symbol ledger whose symbol matches, otherwise
push a fresh one at the end. -/
def addToLedger (l : List SymbolData) (od : Entry) : List SymbolData :=
  match l with
  | [] => [newSymbolDataInsert od]
  | sd :: rest =>
    if sd.symbol = od.symbol then pushByType sd od :: rest
    else sd :: addToLedger rest od

/-- `OrdersManager.saveNewOrder` (src/unnamed/part_000 lines 763-883), from
the point where the payload object has been built from the form: validate
required fields, default `open_type`, validate catalog membership and the
side/type enumerations, assign `maxId + 1` as the id, insert into the
ledger.  Returns the new ledger and the assigned id, or the validation
error.  (The DOM reads building the payload, and the POST that follows, are
outside the embedded fragment.) -/
def saveNewOrder (cat : Catalog) (l : List SymbolData) (od0 : Entry) :
    Except SaveError (List SymbolData × JNum) :=
  if od0.symbol = "" ∨ od0.exchange = "" ∨ od0.side = "" ∨ od0.type = "" then
    .error .missingFields
  else
    let od1 := if od0.open_type = "" then { od0 with open_type := "isolated" } else od0
    if od1.exchange ∈ cat.exchanges then
      if od1.symbol ∈ cat.symbols then
        if od1.side ∈ (["long", "short"] : List String) then
          if od1.type ∈ (["market", "limit"] : List String) then
            let newId := (jmaxList (allIds l)).addOne
            let od := { od1 with id := some newId }
            .ok (addToLedger l od, newId)
          else .error .invalidType
        else .error .invalidSide
      else .error .invalidSymbol
    else .error .invalidExchange

/-- The ledger state after a `saveNewOrder` call: unchanged when validation
fails (every failure is an early return before any mutation). -/
def saveNewOrderLedger (cat : Catalog) (l : List SymbolData) (od : Entry) :
    List SymbolData :=
  match saveNewOrder cat l od with
  | .ok (l2, _) => l2
  | .error _ => l

/-- The id a `saveNewOrder` call assigns, when validation passes. -/
def assignedId (cat : Catalog) (l : List SymbolData) (od : Entry) : Option JNum :=
  match saveNewOrder cat l od with
  | .ok (_, i) => some i
  | .error _ => none

/-- The `findIndex` / replace-or-push step of `performSaveOperation`
(src/unnamed/part_003 lines 144-188): replace the first entry whose id is
`===` the payload id, otherwise push the payload at the end. -/
def replaceOrPush (l : List Entry) (od : Entry) : List Entry :=
  match l with
  | [] => [od]
  | e :: rest => if e.id = od.id then od :: rest else e :: replaceOrPush rest od

/-- The symbol-match branch of `performSaveOperation` (src/unnamed/part_003
lines 141-194).  Returns `some` (the updated symbol ledger) exactly when the
source sets `orderUpdated = true`; returns `none` when the array implied by
the payload kind is absent (the branch that only logs an error). -/
def trySave (sd : SymbolData) (od : Entry) : Option SymbolData :=
  if od.type = "market" then
    match sd.active with
    | some a =>
      match a.positions with
      | some ps =>
        some { sd with active := some { a with positions := some (replaceOrPush ps od) } }
      | none => none
    | none => none
  else if od.type = "limit" then
    match sd.active with
    | some a =>
      match a.orders with
      | some os =>
        some { sd with active := some { a with orders := some (replaceOrPush os od) } }
      | none => none
    | none => none
  else none

/-- The update loop of `performSaveOperation` (src/unnamed/part_003 lines
138-196): visit symbol ledgers in order, `break` at the first symbol match.
The boolean is the source's `orderUpdated` flag. -/
def saveLoop (l : List SymbolData) (od : Entry) : List SymbolData × Bool :=
  match l with
  | [] => ([], false)
  | sd :: rest =>
    if sd.symbol = od.symbol then
      match trySave sd od with
      | some sd2 => (sd2 :: rest, true)
      | none => (sd :: rest, false)
    else
      let r := saveLoop rest od
      (sd :: r.1, r.2)

/-- The fresh symbol ledger `performSaveOperation` pushes when
`orderUpdated` stays false (src/unnamed/part_003 lines 199-219): `active`
holds only the array implied by the payload kind, and there is no `closed`
array. -/
def newSymbolDataSave (od : Entry) : SymbolData :=
  { symbol := od.symbol,
    active := some
      (if od.type = "market" then { orders := none, positions := some [od] }
       else if od.type = "limit" then { orders := some [od], positions := none }
       else { orders := none, positions := none }),
    closed := none }

/-- `ModalsManager.performSaveOperation` (src/unnamed/part_003 lines
122-244): reject when a required field is the empty string (falsy),
otherwise run the update loop and, when no update happened, push a fresh
symbol ledger.  There is no catalog-membership check and no id assignment
on this path. -/
def performSaveOperation (l : List SymbolData) (od : Entry) :
    Except SaveError (List SymbolData) :=
  if od.symbol = "" ∨ od.exchange = "" ∨ od.side = "" ∨ od.type = "" then
    .error .missingFields
  else
    let r := saveLoop l od
    .ok (if r.2 then r.1 else r.1 ++ [newSymbolDataSave od])

/-- The ledger state after a `performSaveOperation` call (unchanged when
the missing-field validation fails). -/
def performSaveLedger (l : List SymbolData) (od : Entry) : List SymbolData :=
  match performSaveOperation l od with
  | .ok l2 => l2
  | .error _ => l

/-- The symbol-match branch of `performCloseOperation` (src/unnamed/part_003
lines 252-280): filter the payload id out of the array implied by the
payload kind (when that array exists), then stamp `close_date` on the
payload and push it onto `closed` (creating `closed` when absent) — the
push happens whether or not anything was removed. -/
def closeInSd (sd : SymbolData) (od : Entry) (now : Int) : SymbolData :=
  let sd1 :=
    if od.type = "market" then
      match sd.active with
      | some a =>
        match a.positions with
        | some ps =>
          { sd with active := some { a with positions := some (ps.filter (fun p => !(p.id == od.id))) } }
        | none => sd
      | none => sd
    else if od.type = "limit" then
      match sd.active with
      | some a =>
        match a.orders with
        | some os =>
          { sd with active := some { a with orders := some (os.filter (fun o => !(o.id == od.id))) } }
        | none => sd
      | none => sd
    else sd
  { sd1 with closed := some (sd1.closed.getD [] ++ [{ od with close_date := some now }]) }

/-- `ModalsManager.performCloseOperation` (src/unnamed/part_003 lines
247-282): visit symbol ledgers in order and apply `closeInSd` to the first
whose symbol matches (`break` afterwards); a ledger with no matching symbol
is left unchanged.  `now` is the clock value used for the close stamp. -/
def performCloseOperation (l : List SymbolData) (od : Entry) (now : Int) :
    List SymbolData :=
  match l with
  | [] => []
  | sd :: rest =>
    if sd.symbol = od.symbol then closeInSd sd od now :: rest
    else sd :: performCloseOperation rest od now

/-- One record of `utils/exchange.json` as read by `loadAvailableExchanges`
(src/templates/static/script.js lines 1048-1062). -/
structure ExchangeRec where
  exchange : String
  use : Bool
deriving DecidableEq, Repr

/-- One record of `utils/symbols.json` as read by `loadAvailableSymbols`
(src/templates/static/script.js lines 1065-1086). -/
structure SymbolRec where
  symbol : String
  use : Bool
deriving DecidableEq, Repr

/-- The hardcoded exchange fallback installed by the `catch` handler of
`loadAvailableExchanges` (script.js line 1060). -/
def exchangeFallback : List String := ["gate", "bitget", "bingx", "mexc"]

/-- The hardcoded symbol fallback installed by the `catch` handler of
`loadAvailableSymbols` (script.js lines 1078-1083). -/
def symbolFallback : List String :=
  ["BTC/USDT", "ETH/USDT", "BTC/USDT:USDT", "ETH/USDT:USDT"]

/-- `AppCore.loadAvailableExchanges` (script.js lines 1048-1062): `prev` is
the in-memory permitted set before the refresh, `fetched` is `some data` on
a successful fetch+parse and `none` on any failure.  The `catch` handler
installs the fallback without consulting `prev`. -/
def loadAvailableExchanges (_prev : List String)
    (fetched : Option (List ExchangeRec)) : List String :=
  match fetched with
  | some data => (data.filter ExchangeRec.use).map ExchangeRec.exchange
  | none => exchangeFallback

/-- `AppCore.loadAvailableSymbols` (script.js lines 1065-1086), analogous
to `loadAvailableExchanges`. -/
def loadAvailableSymbols (_prev : List String)
    (fetched : Option (List SymbolRec)) : List String :=
  match fetched with
  | some data => (data.filter SymbolRec.use).map SymbolRec.symbol
  | none => symbolFallback

/-- The `item.exchange !== exchangeFilter` exclusion of `loadOrdersGroup`
(src/unnamed/part_000 line 244); `none` models the falsy empty filter. -/
def excludedByExchange (exFil : Option String) (it : Entry) : Bool :=
  match exFil with
  | some x => decide (it.exchange ≠ x)
  | none => false

/-- The `new Date(item.date) < new Date(dateFrom)` exclusion
(src/unnamed/part_000 line 248).  `item.date` is a "YYYY-MM-DD HH:MM:SS"
string parsed as local time: its absolute value is the wall-clock seconds
`ts` minus the zone offset `off`; `dateFrom` is a "YYYY-MM-DD" string
parsed as UTC midnight `day * 86400`. -/
def excludedByFrom (off : Int) (dFrom : Option Int) (it : Entry) : Bool :=
  match dFrom, it.date with
  | some day, some ts => decide (ts - off < day * 86400)
  | _, _ => false

/-- The `new Date(item.date) > new Date(dateTo)` exclusion
(src/unnamed/part_000 line 252), with the same parsing model as
`excludedByFrom`. -/
def excludedByTo (off : Int) (dTo : Option Int) (it : Entry) : Bool :=
  match dTo, it.date with
  | some day, some ts => decide (ts - off > day * 86400)
  | _, _ => false

/-- Whether one item survives the three filters of `loadOrdersGroup`
(src/unnamed/part_000 lines 242-258). -/
def keepItem (off : Int) (exFil : Option String) (dFrom dTo : Option Int)
    (it : Entry) : Bool :=
  !excludedByExchange exFil it && !excludedByFrom off dFrom it
    && !excludedByTo off dTo it

/-- The list of items `loadOrdersGroup` renders for one collection: the
input filtered by `keepItem`. -/
def loadOrdersGroup (off : Int) (items : List Entry) (exFil : Option String)
    (dFrom dTo : Option Int) : List Entry :=
  items.filter (keepItem off exFil dFrom dTo)

/-- The observable state of the orders UI: the in-memory ledger
(`ordersManager.ordersData`), the confirm button's dataset (the staged
operation and payload), whether the confirmation modal is shown, and how
many persistence POSTs to `/api/orders` have been issued. -/
structure UiState where
  ledger : List SymbolData
  pendingOperation : Option String
  pendingPayload : Option Entry
  modalShown : Bool
  persistCount : Nat
deriving DecidableEq, Repr

/-- `OrdersManager.showConfirmationModal` (src/unnamed/part_000 lines
682-710): record the operation and payload on the confirm button's dataset
and show the modal; the ledger is not touched and no request is made. -/
def showConfirmationModal (st : UiState) (op : String) (od : Entry) : UiState :=
  { st with pendingOperation := some op, pendingPayload := some od,
            modalShown := true }

/-- The cancel-button handler of the confirmation modal
(src/unnamed/part_003 lines 33-38): hide the modal; nothing else happens. -/
def cancelConfirmation (st : UiState) : UiState :=
  { st with modalShown := false }

/-- The confirm-button handler (src/unnamed/part_003 lines 40-61):
dispatch the staged payload to `performSaveOperation` or
`performCloseOperation` and hide the modal.  A persistence POST is issued
whenever the dispatched operation reaches its `fetch` (always for close;
for save only when the missing-field validation passes). -/
def confirmPending (st : UiState) (now : Int) : UiState :=
  match st.pendingOperation, st.pendingPayload with
  | some "save", some od =>
    match performSaveOperation st.ledger od with
    | .ok l2 =>
      { st with ledger := l2, persistCount := st.persistCount + 1,
                modalShown := false }
    | .error _ => { st with modalShown := false }
  | some "close", some od =>
    { st with ledger := performCloseOperation st.ledger od now,
              persistCount := st.persistCount + 1, modalShown := false }
  | _, _ => { st with modalShown := false }

/-- The validation-and-stage tail of `OrdersManager.saveOrder`
(src/unnamed/part_000 lines 618-650): after the edited entry has been
merged, reject it (no staging, no mutation) unless its exchange and symbol
are in the reference catalog; on success stage a save. -/
def saveOrderValidateAndStage (cat : Catalog) (st : UiState)
    (updatedOrder : Entry) : UiState :=
  if updatedOrder.exchange ∈ cat.exchanges then
    if updatedOrder.symbol ∈ cat.symbols then
      showConfirmationModal st "save" updatedOrder
    else st
  else st

/-- A concrete reference catalog (the fallback lists) used by the concrete
instances below. -/
def demoCatalog : Catalog :=
  { exchanges := exchangeFallback, symbols := symbolFallback }

/-- A fully valid limit-order payload on an empty form, used as concrete
input. -/
def freshLimitOrder : Entry :=
  { symbol := "BTC/USDT", exchange := "gate", side := "long",
    type := "limit", open_type := "isolated", date := some 100 }

/-- A fully valid market-order payload, used as concrete input. -/
def freshMarketOrder : Entry :=
  { symbol := "BTC/USDT", exchange := "gate", side := "short",
    type := "market", open_type := "isolated", date := some 100 }

/-- Ledger with one symbol ledger for BTC/USDT whose collections are all
present and empty. -/
def c2Ledger : List SymbolData :=
  [{ symbol := "BTC/USDT",
     active := some { orders := some [], positions := some [] },
     closed := some [] }]

/-- A close payload whose id (5) occurs nowhere in `c2Ledger`. -/
def c2Payload : Entry :=
  { symbol := "BTC/USDT", exchange := "gate", side := "long",
    type := "market", id := some (JNum.int 5), date := some 10 }

/-- A ledger holding only an ETH/USDT symbol ledger. -/
def c2LedgerEth : List SymbolData :=
  [{ symbol := "ETH/USDT",
     active := some { orders := some [], positions := some [] },
     closed := some [] }]

/-- An update payload whose exchange ("okx") is not in `demoCatalog`. -/
def c5Payload : Entry :=
  { symbol := "BTC/USDT", exchange := "okx", side := "long",
    type := "limit", id := some (JNum.int 9), date := some 10 }

/-- A concrete idle UI state over the empty ledger. -/
def c5State : UiState :=
  { ledger := [], pendingOperation := none, pendingPayload := none,
    modalShown := false, persistCount := 0 }

/-- An entry dated one second after midnight of day 0. -/
def c8Entry : Entry :=
  { symbol := "BTC/USDT", exchange := "gate", side := "long",
    type := "limit", id := some (JNum.int 1), date := some 1 }

/-- An entry dated exactly at midnight of day 0. -/
def c8MidnightEntry : Entry :=
  { symbol := "BTC/USDT", exchange := "gate", side := "long",
    type := "limit", id := some (JNum.int 2), date := some 0 }

/-- A market entry with id 1, created at time 10. -/
def c4Entry : Entry :=
  { symbol := "BTC/USDT", exchange := "gate", side := "long", type := "market",
    id := some (JNum.int 1), date := some 10 }

/-- A symbol ledger holding `c4Entry` as its only active position. -/
def c4Sd : SymbolData :=
  { symbol := "BTC/USDT",
    active := some { orders := some [], positions := some [c4Entry] },
    closed := some [] }

/-- C1: on the empty ledger, `saveNewOrder` assigns the id
`Math.max() + 1 = -Infinity` instead of the specified `1`, and the next
insert into the resulting ledger is assigned `-Infinity` again, so the
assigned identifiers are neither `1` nor unique nor strictly increasing.
(`jmaxList [] = -Infinity` is `Math.max` of the empty spread at
src/unnamed/part_000 lines 838-845.) -/
theorem claim_C1_empty_ledger_id_is_neg_infinity :
    (jmaxList (allIds [])).addOne = JNum.negInf
    ∧ JNum.negInf ≠ JNum.int 1
    ∧ assignedId demoCatalog [] freshLimitOrder = some JNum.negInf
    ∧ assignedId demoCatalog (saveNewOrderLedger demoCatalog [] freshLimitOrder)
        freshMarketOrder = some JNum.negInf := by
  refine ⟨rfl, by decide, by decide, by decide⟩

/-- C2 counterexample: confirming a close whose identifier is absent from
the implied active collection is not a no-op — as long as a symbol ledger
with the payload's symbol exists, the payload is still stamped and appended
to that symbol's closed collection, so the ledger changes. -/
theorem claim_C2_counterexample :
    performCloseOperation c2Ledger c2Payload 100 ≠ c2Ledger
    ∧ closedAt (performCloseOperation c2Ledger c2Payload 100) 0
        = [{ c2Payload with close_date := some 100 }] := by
  refine ⟨by decide, by decide⟩

/-- C2 (amended): the close operation is a no-op exactly when no symbol
ledger carries the payload's symbol; then the loop body never runs. -/
theorem claim_C2_amended_noop_when_symbol_absent
    (l : List SymbolData) (od : Entry) (now : Int)
    (h : ∀ sd ∈ l, sd.symbol ≠ od.symbol) :
    performCloseOperation l od now = l := by
  induction l with
  | nil => rfl
  | cons sd rest ih =>
    have hsd : sd.symbol ≠ od.symbol := h sd (List.mem_cons_self sd rest)
    have hrest : ∀ x ∈ rest, x.symbol ≠ od.symbol :=
      fun x hx => h x (List.mem_cons_of_mem sd hx)
    simp [performCloseOperation, hsd, ih hrest]

/-- Witness for the amended C2 theorem at a concrete input. -/
theorem claim_C2_amended_witness :
    performCloseOperation c2LedgerEth c2Payload 100 = c2LedgerEth :=
  claim_C2_amended_noop_when_symbol_absent c2LedgerEth c2Payload 100 (by decide)

/-- C3: `performSaveOperation` violates symbol uniqueness.  Saving a
market order for a fresh symbol creates a symbol ledger whose `active` has
only a `positions` array; a subsequent save of a limit order for the same
symbol finds that ledger, cannot set its `orderUpdated` flag (no `orders`
array), and therefore pushes a second symbol ledger for the same symbol —
although the first one exists, contradicting the uniqueness invariant and
the code's own comment at src/unnamed/part_003 line 198. -/
theorem claim_C3_duplicate_symbol_ledger :
    ((performSaveLedger [] freshMarketOrder).map SymbolData.symbol
        = ["BTC/USDT"])
    ∧ ((performSaveLedger (performSaveLedger [] freshMarketOrder)
          freshLimitOrder).map SymbolData.symbol
        = ["BTC/USDT", "BTC/USDT"]) := by
  refine ⟨by decide, by decide⟩

/-- C5 counterexample: `performSaveOperation` performs no catalog check —
given a payload whose exchange is outside the catalog (but non-empty), it
does not reject, and it mutates the ledger. -/
theorem claim_C5_counterexample :
    c5Payload.exchange ∉ demoCatalog.exchanges
    ∧ performSaveOperation [] c5Payload = .ok [newSymbolDataSave c5Payload]
    ∧ performSaveLedger [] c5Payload ≠ [] := by
  refine ⟨by decide, rfl, by decide⟩

/-- C5 (amended): the catalog membership check protects the insert path
and the staging step of the edit path, but not the confirmed save itself.
`saveNewOrder` rejects any payload whose exchange is outside the catalog
(with some validation error, whatever the other fields hold) and leaves
the ledger unchanged, and `saveOrder` refuses to stage such a payload;
`performSaveOperation` checks only that required fields are non-empty
(see the counterexample for its acceptance of an unlisted exchange). -/
theorem claim_C5_amended_catalog_check_on_insert_and_staging
    (cat : Catalog) (l : List SymbolData) (od upd : Entry) (st : UiState)
    (h : od.exchange ∉ cat.exchanges) (h2 : upd.exchange ∉ cat.exchanges) :
    (∃ e, saveNewOrder cat l od = .error e)
    ∧ saveNewOrderLedger cat l od = l
    ∧ saveOrderValidateAndStage cat st upd = st := by
  have hsn : ∃ e, saveNewOrder cat l od = .error e := by
    unfold saveNewOrder
    by_cases hm : od.symbol = "" ∨ od.exchange = "" ∨ od.side = "" ∨ od.type = ""
    · exact ⟨.missingFields, by rw [if_pos hm]⟩
    · refine ⟨.invalidExchange, ?_⟩
      rw [if_neg hm]
      by_cases hot : od.open_type = "" <;> simp [hot, h]
  obtain ⟨e, he⟩ := hsn
  refine ⟨⟨e, he⟩, ?_, ?_⟩
  · unfold saveNewOrderLedger
    rw [he]
  · unfold saveOrderValidateAndStage
    rw [if_neg h2]

/-- Witness for the amended C5 theorem at a concrete input. -/
theorem claim_C5_amended_witness :
    (∃ e, saveNewOrder demoCatalog [] c5Payload = .error e)
    ∧ saveNewOrderLedger demoCatalog [] c5Payload = []
    ∧ saveOrderValidateAndStage demoCatalog c5State c5Payload = c5State :=
  claim_C5_amended_catalog_check_on_insert_and_staging demoCatalog [] c5Payload
    c5Payload c5State (by decide) (by decide)

/-- The update loop of `performSaveOperation` passes over every symbol
ledger whose symbol differs from the payload's, leaving the ledger
untouched with `orderUpdated = false`. -/
theorem saveLoop_skip (l : List SymbolData) (od : Entry)
    (h : ∀ sd ∈ l, sd.symbol ≠ od.symbol) : saveLoop l od = (l, false) := by
  induction l with
  | nil => rfl
  | cons sd rest ih =>
    have hsd : sd.symbol ≠ od.symbol := h sd (List.mem_cons_self sd rest)
    have hrest : ∀ x ∈ rest, x.symbol ≠ od.symbol :=
      fun x hx => h x (List.mem_cons_of_mem sd hx)
    simp [saveLoop, hsd, ih hrest]

/-- C6 (amended): when no symbol ledger matches the payload's symbol (so
the identifier is certainly not found), the confirmed save routes the
payload by kind exactly as an insert would — a market payload lands in
`positions`, a limit payload in `orders` — but the fresh symbol ledger it
creates holds only that single implied collection (the other active array
and `closed` are absent) and the payload keeps its id: nothing is assigned
and no catalog validation runs. -/
theorem claim_C6_amended_upsert_routes_but_differs_from_insert
    (l : List SymbolData) (od : Entry)
    (habs : ∀ sd ∈ l, sd.symbol ≠ od.symbol)
    (hsym : od.symbol ≠ "") (hex : od.exchange ≠ "")
    (hside : od.side ≠ "") (hty : od.type = "market" ∨ od.type = "limit") :
    performSaveLedger l od = l ++ [newSymbolDataSave od]
    ∧ impliedOf od.type (newSymbolDataSave od) = [od]
    ∧ otherOf od.type (newSymbolDataSave od) = []
    ∧ closedOf (newSymbolDataSave od) = []
    ∧ ∀ e ∈ impliedOf od.type (newSymbolDataSave od), e.id = od.id := by
  have htne : od.type ≠ "" := by
    rcases hty with hm | hl
    · rw [hm]; decide
    · rw [hl]; decide
  have hmiss : ¬(od.symbol = "" ∨ od.exchange = "" ∨ od.side = "" ∨ od.type = "") := by
    simp [hsym, hex, hside, htne]
  have hledger : performSaveLedger l od = l ++ [newSymbolDataSave od] := by
    unfold performSaveLedger performSaveOperation
    rw [if_neg hmiss]
    simp [saveLoop_skip l od habs]
  refine ⟨hledger, ?_, ?_, ?_, ?_⟩
  · rcases hty with hm | hl
    · simp [impliedOf, positionsOf, newSymbolDataSave, hm]
    · simp [impliedOf, otherOf, ordersOf, newSymbolDataSave, hl]
  · rcases hty with hm | hl
    · simp [otherOf, ordersOf, newSymbolDataSave, hm]
    · simp [otherOf, positionsOf, newSymbolDataSave, hl]
  · simp [closedOf, newSymbolDataSave]
  · rcases hty with hm | hl
    · simp [impliedOf, positionsOf, newSymbolDataSave, hm]
    · simp [impliedOf, ordersOf, newSymbolDataSave, hl]

/-- Witness for the amended C6 theorem at a concrete input. -/
theorem claim_C6_amended_witness :
    performSaveLedger [] freshMarketOrder = [] ++ [newSymbolDataSave freshMarketOrder]
    ∧ impliedOf freshMarketOrder.type (newSymbolDataSave freshMarketOrder)
        = [freshMarketOrder]
    ∧ otherOf freshMarketOrder.type (newSymbolDataSave freshMarketOrder) = []
    ∧ closedOf (newSymbolDataSave freshMarketOrder) = []
    ∧ ∀ e ∈ impliedOf freshMarketOrder.type (newSymbolDataSave freshMarketOrder),
        e.id = freshMarketOrder.id :=
  claim_C6_amended_upsert_routes_but_differs_from_insert [] freshMarketOrder
    (by simp) (by decide) (by decide) (by decide) (Or.inl (by decide))

/-- C6 counterexample: a confirmed save whose identifier is not found does
not behave as `saveNewOrder`.  On the empty ledger the two paths produce
different ledgers: `performSaveOperation` keeps the payload id unassigned
and creates a symbol ledger with only an `orders` array (no `positions`,
no `closed`), while `saveNewOrder` assigns an id and creates all three
collections. -/
theorem claim_C6_counterexample :
    performSaveLedger [] freshLimitOrder
        ≠ saveNewOrderLedger demoCatalog [] freshLimitOrder
    ∧ performSaveLedger [] freshLimitOrder
        = [{ symbol := "BTC/USDT",
             active := some { orders := some [freshLimitOrder], positions := none },
             closed := none }] := by
  refine ⟨by decide, by decide⟩

/-- C7 counterexample: when the fetch fails (`none`) and a previously
loaded non-empty set exists, the previous set is not retained — the
hardcoded fallback replaces it, for exchanges and for symbols alike. -/
theorem claim_C7_counterexample :
    loadAvailableExchanges ["binance"] none = exchangeFallback
    ∧ loadAvailableExchanges ["binance"] none ≠ ["binance"]
    ∧ loadAvailableSymbols ["SOL/USDT"] none = symbolFallback
    ∧ loadAvailableSymbols ["SOL/USDT"] none ≠ ["SOL/USDT"] := by
  refine ⟨rfl, by decide, rfl, by decide⟩

/-- C7 (amended): on any fetch failure the hardcoded fallback list is
installed unconditionally; the previously loaded set is never consulted. -/
theorem claim_C7_amended_fallback_always_installed
    (prevE prevS : List String) :
    loadAvailableExchanges prevE none = exchangeFallback
    ∧ loadAvailableSymbols prevS none = symbolFallback :=
  ⟨rfl, rfl⟩

/-- C8 counterexample: with `dateTo` set to day 0, an entry dated one
second into day 0 (so its date falls on calendar day 0) is excluded by the
filter — the comparison is a full timestamp comparison against midnight of
day 0, not a calendar-date comparison.  (Timezone offset 0, i.e. a UTC
runtime, where "YYYY-MM-DD HH:MM:SS" and "YYYY-MM-DD" parse against the
same epoch.) -/
theorem claim_C8_counterexample :
    ((0 : Int) * 86400 ≤ 1 ∧ (1 : Int) < (0 + 1) * 86400)
    ∧ keepItem 0 none none (some 0) c8Entry = false
    ∧ loadOrdersGroup 0 [c8Entry] none none (some 0) = [] := by
  refine ⟨by decide, by decide, by decide⟩

/-- C8 (amended): with only `dateTo` set to day `day`, the filter keeps a
dated entry exactly when its parsed timestamp is at most midnight at the
start of that day (`day * 86400`); every entry later in the day is
excluded, so inclusion is by timestamp, not by calendar date. -/
theorem claim_C8_amended_dateTo_is_midnight_cutoff
    (off day ts : Int) (it : Entry) (h : it.date = some ts) :
    keepItem off none none (some day) it = true ↔ ts - off ≤ day * 86400 := by
  simp [keepItem, excludedByExchange, excludedByFrom, excludedByTo, h]

/-- Witness for the amended C8 theorem at a concrete input. -/
theorem claim_C8_amended_witness :
    keepItem 0 none none (some 0) c8MidnightEntry = true
      ↔ (0 : Int) - 0 ≤ 0 * 86400 :=
  claim_C8_amended_dateTo_is_midnight_cutoff 0 0 0 c8MidnightEntry rfl

/-- Splitting a list's length into the part satisfying a predicate and the
part falsifying it. -/
theorem length_filterNot_add_countP {α : Type} (p : α → Bool) (l : List α) :
    (l.filter (fun e => !(p e))).length + l.countP p = l.length := by
  induction l with
  | nil => rfl
  | cons e t ih =>
    by_cases h : p e
    · simp only [List.filter_cons, List.countP_cons, h]
      simp
      omega
    · simp only [List.filter_cons, List.countP_cons, h]
      simp
      omega

/-- A non-empty `positions` read implies the `active` object and its
`positions` array are both present. -/
theorem positionsOf_inv (sd : SymbolData) (h : positionsOf sd ≠ []) :
    ∃ a ps, sd.active = some a ∧ a.positions = some ps ∧ positionsOf sd = ps := by
  cases hA : sd.active with
  | none => exact absurd (by simp [positionsOf, hA]) h
  | some a =>
    cases hp : a.positions with
    | none => exact absurd (by simp [positionsOf, hA, hp]) h
    | some ps => exact ⟨a, ps, rfl, hp, by simp [positionsOf, hA, hp]⟩

/-- A non-empty `orders` read implies the `active` object and its `orders`
array are both present. -/
theorem ordersOf_inv (sd : SymbolData) (h : ordersOf sd ≠ []) :
    ∃ a os, sd.active = some a ∧ a.orders = some os ∧ ordersOf sd = os := by
  cases hA : sd.active with
  | none => exact absurd (by simp [ordersOf, hA]) h
  | some a =>
    cases ho : a.orders with
    | none => exact absurd (by simp [ordersOf, hA, ho]) h
    | some os => exact ⟨a, os, rfl, ho, by simp [ordersOf, hA, ho]⟩

/-- The close loop passes over every symbol ledger before the first match
and rewrites exactly the first matching one. -/
theorem performClose_first_match (pre : List SymbolData) (sd : SymbolData)
    (post : List SymbolData) (od : Entry) (now : Int)
    (hpre : ∀ x ∈ pre, x.symbol ≠ od.symbol) (hsym : sd.symbol = od.symbol) :
    performCloseOperation (pre ++ sd :: post) od now
      = pre ++ closeInSd sd od now :: post := by
  induction pre with
  | nil => simp [performCloseOperation, hsym]
  | cons x rest ih =>
    have hx : x.symbol ≠ od.symbol := hpre x (List.mem_cons_self x rest)
    have hrest : ∀ y ∈ rest, y.symbol ≠ od.symbol :=
      fun y hy => hpre y (List.mem_cons_of_mem x hy)
    simp [performCloseOperation, hx, ih hrest]

/-- Explicit form of `closeInSd` on a market payload when the `positions`
array exists. -/
theorem closeInSd_market (sd : SymbolData) (a : Active) (ps : List Entry)
    (od : Entry) (now : Int) (hty : od.type = "market")
    (hA : sd.active = some a) (hp : a.positions = some ps) :
    closeInSd sd od now =
      { symbol := sd.symbol,
        active := some { a with positions := some (ps.filter (fun p => !(p.id == od.id))) },
        closed := some (sd.closed.getD [] ++ [{ od with close_date := some now }]) } := by
  simp [closeInSd, hty, hA, hp]

/-- Explicit form of `closeInSd` on a limit payload when the `orders`
array exists. -/
theorem closeInSd_limit (sd : SymbolData) (a : Active) (os : List Entry)
    (od : Entry) (now : Int) (hty : od.type = "limit")
    (hA : sd.active = some a) (ho : a.orders = some os) :
    closeInSd sd od now =
      { symbol := sd.symbol,
        active := some { a with orders := some (os.filter (fun o => !(o.id == od.id))) },
        closed := some (sd.closed.getD [] ++ [{ od with close_date := some now }]) } := by
  have hne : od.type ≠ "market" := by rw [hty]; decide
  simp [closeInSd, hty, hne, hA, ho]

/-- C4: confirming a close against a ledger whose first symbol ledger for
the payload's symbol holds the payload (exactly once, by id) in the active
collection implied by its kind: the loop rewrites only that symbol ledger;
within it the implied collection loses exactly the entries carrying the
payload id (so the payload entry is removed from it), the other active
collection is untouched, the payload — stamped with the close timestamp —
is appended to `closed`, the symbol's total entry count is preserved, and
the close stamp is not earlier than the creation timestamp. -/
theorem claim_C4_close_moves_unique_entry
    (pre post : List SymbolData) (sd : SymbolData) (od : Entry) (now d : Int)
    (hpre : ∀ x ∈ pre, x.symbol ≠ od.symbol)
    (hsym : sd.symbol = od.symbol)
    (hty : od.type = "market" ∨ od.type = "limit")
    (hmem : od ∈ impliedOf od.type sd)
    (huniq : (impliedOf od.type sd).countP (fun p => p.id == od.id) = 1)
    (hd : od.date = some d) (hdn : d ≤ now) :
    performCloseOperation (pre ++ sd :: post) od now
        = pre ++ closeInSd sd od now :: post
    ∧ impliedOf od.type (closeInSd sd od now)
        = (impliedOf od.type sd).filter (fun p => !(p.id == od.id))
    ∧ od ∉ impliedOf od.type (closeInSd sd od now)
    ∧ otherOf od.type (closeInSd sd od now) = otherOf od.type sd
    ∧ closedOf (closeInSd sd od now)
        = closedOf sd ++ [{ od with close_date := some now }]
    ∧ totalOf (closeInSd sd od now) = totalOf sd
    ∧ ({ od with close_date := some now }).date = some d ∧ d ≤ now := by
  refine ⟨performClose_first_match pre sd post od now hpre hsym, ?_⟩
  have hcount := length_filterNot_add_countP
    (fun p => p.id == od.id) (impliedOf od.type sd)
  rw [huniq] at hcount
  rcases hty with hm | hl
  · have hne : positionsOf sd ≠ [] := by
      intro hnil
      rw [show impliedOf od.type sd = positionsOf sd by simp [impliedOf, hm], hnil] at hmem
      exact List.not_mem_nil od hmem
    obtain ⟨a, ps, hA, hp, hps⟩ := positionsOf_inv sd hne
    have hc := closeInSd_market sd a ps od now hm hA hp
    have himpl : impliedOf od.type sd = ps := by
      rw [show impliedOf od.type sd = positionsOf sd by simp [impliedOf, hm], hps]
    have himpl2 : impliedOf od.type (closeInSd sd od now)
        = ps.filter (fun p => !(p.id == od.id)) := by
      rw [hc]
      simp [impliedOf, positionsOf, hm]
    refine ⟨by rw [himpl2, himpl], ?_, ?_, ?_, ?_, hd, hdn⟩
    · rw [himpl2]
      simp
    · rw [hc]
      simp [otherOf, ordersOf, hm, hA]
    · rw [hc]
      simp [closedOf]
    · rw [hc]
      rw [himpl] at hcount
      simp only [totalOf, ordersOf, positionsOf, closedOf, hA, hp]
      simp
      omega
  · have hnm : od.type ≠ "market" := by rw [hl]; decide
    have hne : ordersOf sd ≠ [] := by
      intro hnil
      rw [show impliedOf od.type sd = ordersOf sd by simp [impliedOf, hnm], hnil] at hmem
      exact List.not_mem_nil od hmem
    obtain ⟨a, os, hA, ho, hos⟩ := ordersOf_inv sd hne
    have hc := closeInSd_limit sd a os od now hl hA ho
    have himpl : impliedOf od.type sd = os := by
      rw [show impliedOf od.type sd = ordersOf sd by simp [impliedOf, hnm], hos]
    have himpl2 : impliedOf od.type (closeInSd sd od now)
        = os.filter (fun o => !(o.id == od.id)) := by
      rw [hc]
      simp [impliedOf, ordersOf, hnm]
    refine ⟨by rw [himpl2, himpl], ?_, ?_, ?_, ?_, hd, hdn⟩
    · rw [himpl2]
      simp
    · rw [hc]
      simp [otherOf, positionsOf, hnm, hA]
    · rw [hc]
      simp [closedOf]
    · rw [hc]
      rw [himpl] at hcount
      simp only [totalOf, ordersOf, positionsOf, closedOf, hA, ho]
      simp
      omega

/-- Witness for the C4 theorem at a concrete input. -/
theorem claim_C4_witness :
    performCloseOperation [c4Sd] c4Entry 20 = [closeInSd c4Sd c4Entry 20]
    ∧ totalOf (closeInSd c4Sd c4Entry 20) = totalOf c4Sd
    ∧ closedOf (closeInSd c4Sd c4Entry 20)
        = closedOf c4Sd ++ [{ c4Entry with close_date := some 20 }] := by
  have h := claim_C4_close_moves_unique_entry [] [] c4Sd c4Entry 20 10
    (by simp) rfl (Or.inl rfl) (by decide) (by decide) rfl (by decide)
  exact ⟨h.1, h.2.2.2.2.2.1, h.2.2.2.2.1⟩

/-- Reading the closed collection of the empty ledger. -/
theorem closedAt_nil (i : Nat) : closedAt [] i = [] := by
  simp [closedAt]

/-- Reading the closed collection at the head of a ledger. -/
theorem closedAt_cons_zero (sd : SymbolData) (l : List SymbolData) :
    closedAt (sd :: l) 0 = closedOf sd := by
  simp [closedAt]

/-- Reading a closed collection past the head of a ledger. -/
theorem closedAt_cons_succ (sd : SymbolData) (l : List SymbolData) (j : Nat) :
    closedAt (sd :: l) (j + 1) = closedAt l j := by
  simp [closedAt]

/-- The push step of the insert loop never touches the closed array. -/
theorem closedOf_pushByType (sd : SymbolData) (od : Entry) :
    closedOf (pushByType sd od) = closedOf sd := by
  by_cases h1 : od.type = "market"
  · simp [pushByType, closedOf, h1]
  · by_cases h2 : od.type = "limit" <;> simp [pushByType, closedOf, h1, h2]

/-- The insert loop preserves every closed collection (a fresh symbol
ledger starts with an empty one). -/
theorem closedAt_addToLedger (l : List SymbolData) (od : Entry) (i : Nat) :
    closedAt (addToLedger l od) i = closedAt l i := by
  induction l generalizing i with
  | nil =>
    cases i with
    | zero =>
      rw [show addToLedger [] od = [newSymbolDataInsert od] from rfl,
        closedAt_cons_zero, closedAt_nil]
      rfl
    | succ j =>
      rw [show addToLedger [] od = [newSymbolDataInsert od] from rfl,
        closedAt_cons_succ, closedAt_nil, closedAt_nil]
  | cons sd rest ih =>
    by_cases h : sd.symbol = od.symbol
    · have hstep : addToLedger (sd :: rest) od = pushByType sd od :: rest := by
        simp [addToLedger, h]
      cases i with
      | zero => rw [hstep, closedAt_cons_zero, closedAt_cons_zero, closedOf_pushByType]
      | succ j => rw [hstep, closedAt_cons_succ, closedAt_cons_succ]
    · have hstep : addToLedger (sd :: rest) od = sd :: addToLedger rest od := by
        simp [addToLedger, h]
      cases i with
      | zero => rw [hstep, closedAt_cons_zero, closedAt_cons_zero]
      | succ j => rw [hstep, closedAt_cons_succ, closedAt_cons_succ, ih]

/-- The update branch of the confirmed save never touches the closed
array. -/
theorem closedOf_trySave (sd sd2 : SymbolData) (od : Entry)
    (h : trySave sd od = some sd2) : closedOf sd2 = closedOf sd := by
  by_cases h1 : od.type = "market"
  · cases hA : sd.active with
    | none => simp [trySave, h1, hA] at h
    | some a =>
      cases hp : a.positions with
      | none => simp [trySave, h1, hA, hp] at h
      | some ps =>
        simp only [trySave, h1, hA, hp, reduceIte] at h
        rw [← Option.some.inj h]
        rfl
  · by_cases h2 : od.type = "limit"
    · cases hA : sd.active with
      | none => simp [trySave, h1, h2, hA] at h
      | some a =>
        cases ho : a.orders with
        | none => simp [trySave, h1, h2, hA, ho] at h
        | some os =>
          simp only [trySave, h1, h2, reduceIte, hA, ho] at h
          rw [← Option.some.inj h]
          rfl
    · simp [trySave, h1, h2] at h

/-- The update loop of the confirmed save preserves every closed
collection. -/
theorem closedAt_saveLoop (l : List SymbolData) (od : Entry) (i : Nat) :
    closedAt (saveLoop l od).1 i = closedAt l i := by
  induction l generalizing i with
  | nil => rfl
  | cons sd rest ih =>
    by_cases h : sd.symbol = od.symbol
    · cases hts : trySave sd od with
      | some sd2 =>
        have hstep : (saveLoop (sd :: rest) od).1 = sd2 :: rest := by
          simp [saveLoop, h, hts]
        cases i with
        | zero =>
          rw [hstep, closedAt_cons_zero, closedAt_cons_zero,
            closedOf_trySave sd sd2 od hts]
        | succ j => rw [hstep, closedAt_cons_succ, closedAt_cons_succ]
      | none =>
        have hstep : (saveLoop (sd :: rest) od).1 = sd :: rest := by
          simp [saveLoop, h, hts]
        rw [hstep]
    · have hstep : (saveLoop (sd :: rest) od).1 = sd :: (saveLoop rest od).1 := by
        simp [saveLoop, h]
      cases i with
      | zero => rw [hstep, closedAt_cons_zero, closedAt_cons_zero]
      | succ j => rw [hstep, closedAt_cons_succ, closedAt_cons_succ, ih]

/-- Appending one symbol ledger with an empty closed collection changes no
`closedAt` observation. -/
theorem closedAt_append_empty_closed (l : List SymbolData) (sd : SymbolData)
    (i : Nat) (h : closedOf sd = []) : closedAt (l ++ [sd]) i = closedAt l i := by
  unfold closedAt
  by_cases hi : i < l.length
  · rw [List.getElem?_append_left hi]
  · rw [List.getElem?_append_right (Nat.le_of_not_lt hi)]
    rw [List.getElem?_eq_none_iff.mpr (Nat.le_of_not_lt hi)]
    cases hk : i - l.length with
    | zero => simp [h]
    | succ k => simp

/-- The close operation appends exactly one stamped payload to the matched
symbol's closed collection and never removes anything from it. -/
theorem closedOf_closeInSd (sd : SymbolData) (od : Entry) (now : Int) :
    closedOf (closeInSd sd od now)
      = closedOf sd ++ [{ od with close_date := some now }] := by
  by_cases h1 : od.type = "market"
  · cases hA : sd.active with
    | none => simp [closeInSd, closedOf, h1, hA]
    | some a =>
      cases hp : a.positions with
      | none => simp [closeInSd, closedOf, h1, hA, hp]
      | some ps => simp [closeInSd, closedOf, h1, hA, hp]
  · by_cases h2 : od.type = "limit"
    · cases hA : sd.active with
      | none => simp [closeInSd, closedOf, h1, h2, hA]
      | some a =>
        cases ho : a.orders with
        | none => simp [closeInSd, closedOf, h1, h2, hA, ho]
        | some os => simp [closeInSd, closedOf, h1, h2, hA, ho]
    · simp [closeInSd, closedOf, h1, h2]

/-- A successful `saveNewOrder` produces exactly the ledger built by the
insert loop. -/
theorem saveNewOrder_ok_ledger (cat : Catalog) (l : List SymbolData)
    (od : Entry) (p : List SymbolData × JNum)
    (h : saveNewOrder cat l od = .ok p) : ∃ x, p.1 = addToLedger l x := by
  unfold saveNewOrder at h
  by_cases h1 : od.symbol = "" ∨ od.exchange = "" ∨ od.side = "" ∨ od.type = ""
  · rw [if_pos h1] at h
    exact Except.noConfusion h
  · rw [if_neg h1] at h
    by_cases hot : od.open_type = "" <;>
      simp only [hot, ite_true, ite_false] at h <;>
      repeat' split at h
    all_goals first
      | exact Except.noConfusion h
      | exact ⟨_, congrArg Prod.fst (Except.ok.inj h).symm⟩

/-- A successful `performSaveOperation` produces the loop result, with a
fresh symbol ledger appended when the update flag stayed false. -/
theorem performSave_ok_ledger (l : List SymbolData) (od : Entry)
    (l2 : List SymbolData) (h : performSaveOperation l od = .ok l2) :
    l2 = (saveLoop l od).1
    ∨ l2 = (saveLoop l od).1 ++ [newSymbolDataSave od] := by
  unfold performSaveOperation at h
  by_cases h1 : od.symbol = "" ∨ od.exchange = "" ∨ od.side = "" ∨ od.type = ""
  · rw [if_pos h1] at h
    exact Except.noConfusion h
  · rw [if_neg h1] at h
    by_cases h2 : (saveLoop l od).2 = true
    · left
      simp only [h2, ite_true] at h
      exact (Except.ok.inj h).symm
    · right
      simp only [h2, ite_false] at h
      exact (Except.ok.inj h).symm

/-- C10: across all three ledger mutations, closed collections only grow.
An insert (`saveNewOrder`) and a confirmed save (`performSaveOperation`)
leave every closed collection exactly as it was — so the close workflow is
the only transition into `closed` — and a confirmed close
(`performCloseOperation`) only ever appends to a closed collection, so no
entry is ever removed from `closed` and no closed entry moves back into an
active collection: the transition is irreversible under these
operations. -/
theorem claim_C10_closed_is_append_only
    (cat : Catalog) (l : List SymbolData) (od1 od2 od3 : Entry) (now : Int) :
    (∀ i, closedAt (saveNewOrderLedger cat l od1) i = closedAt l i)
    ∧ (∀ i, closedAt (performSaveLedger l od2) i = closedAt l i)
    ∧ (∀ i, ∃ t, closedAt (performCloseOperation l od3 now) i
        = closedAt l i ++ t) := by
  refine ⟨?_, ?_, ?_⟩
  · intro i
    unfold saveNewOrderLedger
    cases hs : saveNewOrder cat l od1 with
    | error e => rfl
    | ok p =>
      obtain ⟨x, hx⟩ := saveNewOrder_ok_ledger cat l od1 p hs
      obtain ⟨l2, j2⟩ := p
      rw [show (match Except.ok (ε := SaveError) (l2, j2) with
          | .ok (l2, _) => l2 | .error _ => l) = l2 from rfl]
      rw [show l2 = addToLedger l x from hx]
      exact closedAt_addToLedger l x i
  · intro i
    unfold performSaveLedger
    cases hs : performSaveOperation l od2 with
    | error e => rfl
    | ok l2 =>
      rcases performSave_ok_ledger l od2 l2 hs with h2 | h2 <;> rw [h2]
      · exact closedAt_saveLoop l od2 i
      · rw [closedAt_append_empty_closed _ _ _ (by simp [closedOf, newSymbolDataSave])]
        exact closedAt_saveLoop l od2 i
  · intro i
    induction l generalizing i with
    | nil => exact ⟨[], by rw [show performCloseOperation [] od3 now = [] from rfl, closedAt_nil]; rfl⟩
    | cons sd rest ih =>
      by_cases h : sd.symbol = od3.symbol
      · have hstep : performCloseOperation (sd :: rest) od3 now
            = closeInSd sd od3 now :: rest := by
          simp [performCloseOperation, h]
        cases i with
        | zero =>
          refine ⟨[{ od3 with close_date := some now }], ?_⟩
          rw [hstep, closedAt_cons_zero, closedAt_cons_zero, closedOf_closeInSd]
        | succ j =>
          refine ⟨[], ?_⟩
          rw [hstep, closedAt_cons_succ, closedAt_cons_succ, List.append_nil]
      · have hstep : performCloseOperation (sd :: rest) od3 now
            = sd :: performCloseOperation rest od3 now := by
          simp [performCloseOperation, h]
        cases i with
        | zero =>
          refine ⟨[], ?_⟩
          rw [hstep, closedAt_cons_zero, closedAt_cons_zero, List.append_nil]
        | succ j =>
          obtain ⟨t, ht⟩ := ih j
          exact ⟨t, by rw [hstep, closedAt_cons_succ, closedAt_cons_succ, ht]⟩

/-- C9: staging an operation (`showConfirmationModal`) only records the
pending operation on the confirm button and shows the modal — the ledger
is untouched and no persistence request is issued; cancelling afterwards
only hides the modal, so after stage→cancel the ledger is identical to the
pre-stage ledger and the persistence count is unchanged. -/
theorem claim_C9_stage_cancel_preserves_ledger
    (st : UiState) (op : String) (od : Entry) :
    (showConfirmationModal st op od).ledger = st.ledger
    ∧ (showConfirmationModal st op od).persistCount = st.persistCount
    ∧ (cancelConfirmation (showConfirmationModal st op od)).ledger = st.ledger
    ∧ (cancelConfirmation (showConfirmationModal st op od)).persistCount
        = st.persistCount :=
  ⟨rfl, rfl, rfl, rfl⟩
